import Mathlib

/-!
Shallow embedding of the bookkeeping core of `backend/server.py` (CripteX API):
users, sessions and predictions live in a document store; handlers mutate
per-user quota and referral fields.  Each Lean definition mirrors one source
handler or helper:

* `get_current_user`  — session resolution (server.py, `get_current_user`);
* `create_session`    — user/session creation after a successful identity
  exchange (server.py, `create_session`), parametrised by the exchanged
  payload and the randomly generated referral code;
* `logout`            — bulk session delete (server.py, `logout`);
* `create_prediction` — quota-gated prediction append (server.py,
  `create_prediction`), parametrised by the outcome of the external price
  lookup;
* `claim_daily_bonus` — daily bonus grant (server.py, `claim_daily_bonus`);
* `use_referral_code` — referral redemption (server.py, `use_referral_code`).

Times are integers (seconds); `datetime.utcnow()` becomes an explicit `now`
argument.  Prices are rationals carrying the source's decimal literals.
Mongo's `find_one` is first-match search over the collection list,
`update_one` updates the first matching document, `insert_one` appends,
and `delete_many` filters.  Python truthiness of optional strings
(`if user.referred_by:`, `if not token:`) is modelled exactly: both `None`
and the empty string count as falsy.
-/

structure User where
  id : String
  email : String
  name : String
  picture : String
  free_predictions : Int
  total_predictions_used : Int
  referral_code : String
  referred_by : Option String
  referral_count : Int
  referral_earnings : Int
  created_at : Int
  last_bonus_claim : Option Int
deriving DecidableEq

structure Session where
  session_token : String
  user_id : String
  expires_at : Int
  created_at : Int
deriving DecidableEq

structure Prediction where
  id : String
  user_id : String
  symbol : String
  prediction_type : String
  timeframe : String
  confidence : ℚ
  entry_price : ℚ
  target_price : ℚ
  stop_loss : ℚ
  created_at : Int
  is_free : Bool
deriving DecidableEq

deriving instance DecidableEq for Except

/-- The document store: the `users`, `sessions` and `predictions` collections. -/
structure DB where
  users : List User
  sessions : List Session
  predictions : List Prediction
deriving DecidableEq

def emptyDB : DB := { users := [], sessions := [], predictions := [] }

/-- Mongo `update_one`: apply `f` to the first element matching `p`. -/
def updateFirst (p : α → Bool) (f : α → α) : List α → List α
  | [] => []
  | x :: xs => if p x then f x :: xs else x :: updateFirst p f xs

/-- Python truthiness of an `Optional[str]`: `None` and `""` are falsy. -/
def truthyStr : Option String → Bool
  | none => false
  | some s => !(s == "")

/-- `timedelta.days` of a difference of `d` seconds: Python floors toward
negative infinity, which is `Int.fdiv`. -/
def timedeltaDays (d : Int) : Int := Int.fdiv d 86400

/-- Client errors raised by the handlers (HTTP 400/401/404 details). -/
inductive ApiError where
  | notAuthenticated
  | insufficientQuota
  | bonusAlreadyClaimed
  | alreadyReferred
  | unknownReferralCode
  | selfReferral
deriving DecidableEq

/-- `get_current_user`: cookie/bearer token to `User`, `None` when the token
is missing/empty, the session is unknown, `expires_at < now`, or the
referenced user record is gone. -/
def get_current_user (db : DB) (token : Option String) (now : Int) : Option User :=
  match token with
  | none => none
  | some t =>
    if t == "" then none
    else
      match db.sessions.find? (fun s => s.session_token == t) with
      | none => none
      | some s =>
        if s.expires_at < now then none
        else db.users.find? (fun u => u.id == s.user_id)

/-- The identity payload returned by the external exchange
(`auth_data` in `create_session`). -/
structure AuthData where
  id : String
  email : String
  name : String
  picture : String
  session_token : String
deriving DecidableEq

/-- `create_session` after a successful identity exchange: look up the user
by **email**; create the user (quota 5, fresh referral code `gencode`) only
when no user with that email exists; then insert a 7-day session bound to
the stored user's id.  Returns the new store and the bound user. -/
def create_session (db : DB) (auth : AuthData) (gencode : String) (now : Int) :
    DB × User :=
  match db.users.find? (fun u => u.email == auth.email) with
  | some existing =>
    ({ db with sessions := db.sessions ++
        [{ session_token := auth.session_token, user_id := existing.id,
           expires_at := now + 7 * 86400, created_at := now }] }, existing)
  | none =>
    let nu : User :=
      { id := auth.id, email := auth.email, name := auth.name,
        picture := auth.picture, free_predictions := 5,
        total_predictions_used := 0, referral_code := gencode,
        referred_by := none, referral_count := 0, referral_earnings := 0,
        created_at := now, last_bonus_claim := none }
    ({ db with
        users := db.users ++ [nu],
        sessions := db.sessions ++
          [{ session_token := auth.session_token, user_id := nu.id,
             expires_at := now + 7 * 86400, created_at := now }] }, nu)

/-- `logout`: delete every session of the resolved user (`delete_many` by
`user_id`); always succeeds. -/
def logout (db : DB) (token : Option String) (now : Int) : DB :=
  match get_current_user db token now with
  | none => db
  | some u => { db with sessions := db.sessions.filter (fun s => !(s.user_id == u.id)) }

/-- Request body of `POST /api/predictions` after parsing. -/
structure PredBody where
  symbol : String
  prediction_type : String
  timeframe : String
  target_price : ℚ
  stop_loss : ℚ
deriving DecidableEq

/-- Outcome of the external price lookup in `create_prediction`:
`ok p` — HTTP 200 with the price present; `httpError` — a non-200 response
(no exception is raised, so the `if resp.status == 200` block is skipped);
`exc` — any exception, including a timeout (caught by the bare `except`). -/
inductive PriceResult where
  | ok (price : ℚ)
  | httpError
  | exc
deriving DecidableEq

/-- The static fallback table `mock_prices` in `create_prediction`, keyed by
upper-cased symbol. -/
def mock_prices : List (String × ℚ) :=
  [("BITCOIN", 45230.50), ("ETHEREUM", 2845.75), ("BINANCECOIN", 312.40),
   ("CARDANO", 0.485), ("SOLANA", 98.75)]

/-- Entry-price resolution of `create_prediction`: `current_price` starts at
the default `45230.50`; a 200 response overwrites it with the fetched price;
an exception (timeout included) replaces it with
`mock_prices.get(symbol.upper(), 45230.50)`; a non-200 response leaves the
initial default in place. -/
def entryPrice (symbol : String) (price : PriceResult) : ℚ :=
  match price with
  | .ok p => p
  | .httpError => 45230.50
  | .exc =>
    match mock_prices.find? (fun kv => kv.1 == symbol.toUpper) with
    | some kv => kv.2
    | none => 45230.50

/-- The guard of `claim_daily_bonus`:
`user.last_bonus_claim and (now - user.last_bonus_claim).days < 1`. -/
def bonusBlocked (lastClaim : Option Int) (now : Int) : Bool :=
  match lastClaim with
  | some last => decide (timedeltaDays (now - last) < 1)
  | none => false

/-- The `$inc` document of `create_prediction`'s `update_one`:
`free_predictions -= 1`, `total_predictions_used += 1`. -/
def consumeUpd (x : User) : User :=
  { x with free_predictions := x.free_predictions - 1,
           total_predictions_used := x.total_predictions_used + 1 }

/-- The update document of `claim_daily_bonus`: `free_predictions += 1`,
`last_bonus_claim = now`. -/
def bonusUpd (now : Int) (x : User) : User :=
  { x with free_predictions := x.free_predictions + 1,
           last_bonus_claim := some now }

/-- The referee-side update of `use_referral_code`: set `referred_by` and
grant one prediction. -/
def refereeUpd (rid : String) (x : User) : User :=
  { x with referred_by := some rid,
           free_predictions := x.free_predictions + 1 }

/-- The referrer-side update of `use_referral_code`: `+1` on
`referral_count`, `referral_earnings` and `free_predictions`. -/
def referrerUpd (x : User) : User :=
  { x with referral_count := x.referral_count + 1,
           referral_earnings := x.referral_earnings + 1,
           free_predictions := x.free_predictions + 1 }

/-- `create_prediction`: 401 without a user, 400 (`insufficientQuota`) when
`free_predictions <= 0`; otherwise resolve the entry price (`current_price`
starts at the default `45230.50`; only a 200 response overwrites it; an
exception replaces it by `mock_prices.get(symbol.upper(), 45230.50)`),
append the record and decrement the quota. -/
def create_prediction (db : DB) (token : Option String) (body : PredBody)
    (price : PriceResult) (pid : String) (now : Int) : Except ApiError DB :=
  match get_current_user db token now with
  | none => .error .notAuthenticated
  | some user =>
    if user.free_predictions ≤ 0 then .error .insufficientQuota
    else
      .ok { db with
        predictions := db.predictions ++
          [{ id := pid, user_id := user.id, symbol := body.symbol,
             prediction_type := body.prediction_type,
             timeframe := body.timeframe, confidence := 75.5,
             entry_price := entryPrice body.symbol price,
             target_price := body.target_price, stop_loss := body.stop_loss,
             created_at := now, is_free := true }],
        users := updateFirst (fun x => x.id == user.id) consumeUpd db.users }

/-- `claim_daily_bonus`: 400 when `last_bonus_claim` is set and
`(now - last_bonus_claim).days < 1`; otherwise `free_predictions += 1` and
`last_bonus_claim = now`. -/
def claim_daily_bonus (db : DB) (token : Option String) (now : Int) :
    Except ApiError DB :=
  match get_current_user db token now with
  | none => .error .notAuthenticated
  | some user =>
    if bonusBlocked user.last_bonus_claim now then .error .bonusAlreadyClaimed
    else .ok { db with
      users := updateFirst (fun x => x.id == user.id) (bonusUpd now) db.users }

/-- `use_referral_code`: `alreadyReferred` when `user.referred_by` is truthy,
`unknownReferralCode` when no user holds the code, `selfReferral` when the
holder is the caller; otherwise set `referred_by`, grant the referee one
prediction, and credit the referrer (+1 each on `referral_count`,
`referral_earnings`, `free_predictions`). -/
def use_referral_code (db : DB) (token : Option String) (now : Int)
    (code : String) : Except ApiError DB :=
  match get_current_user db token now with
  | none => .error .notAuthenticated
  | some user =>
    if truthyStr user.referred_by then .error .alreadyReferred
    else
      match db.users.find? (fun x => x.referral_code == code) with
      | none => .error .unknownReferralCode
      | some referrer =>
        if referrer.id == user.id then .error .selfReferral
        else
          .ok { db with
            users :=
              updateFirst (fun x => x.id == referrer.id) referrerUpd
                (updateFirst (fun x => x.id == user.id)
                  (refereeUpd referrer.id) db.users) }

/-- One state-mutating request against the store. -/
inductive Op where
  | createSession (auth : AuthData) (gencode : String) (now : Int)
  | doLogout (token : Option String) (now : Int)
  | createPrediction (token : Option String) (body : PredBody)
      (price : PriceResult) (pid : String) (now : Int)
  | claimBonus (token : Option String) (now : Int)
  | useReferral (token : Option String) (code : String) (now : Int)
deriving DecidableEq

/-- Apply one request: a handler that raises leaves the store unchanged
(every raise in the source happens before its first write). -/
def applyOp (db : DB) : Op → DB
  | .createSession auth gencode now => (create_session db auth gencode now).1
  | .doLogout token now => logout db token now
  | .createPrediction token body price pid now =>
    match create_prediction db token body price pid now with
    | .ok db2 => db2
    | .error _ => db
  | .claimBonus token now =>
    match claim_daily_bonus db token now with
    | .ok db2 => db2
    | .error _ => db
  | .useReferral token code now =>
    match use_referral_code db token now code with
    | .ok db2 => db2
    | .error _ => db

def applyOps (db : DB) (ops : List Op) : DB := ops.foldl applyOp db

/-! ### Lemmas about `updateFirst` (Mongo `update_one`) -/

theorem updateFirst_length (p : α → Bool) (f : α → α) (l : List α) :
    (updateFirst p f l).length = l.length := by
  induction l with
  | nil => rfl
  | cons x xs ih =>
    by_cases h : p x = true
    · simp [updateFirst, h]
    · simp [updateFirst, h, ih]

theorem find?_updateFirst_of_none (p q : α → Bool) (f : α → α) (l : List α)
    (hq : ∀ x, p x = true → q x = false ∧ q (f x) = false) :
    (updateFirst p f l).find? q = l.find? q := by
  induction l with
  | nil => rfl
  | cons x xs ih =>
    by_cases h : p x = true
    · have hx := hq x h
      simp only [updateFirst, if_pos h]
      rw [List.find?_cons_of_neg _ (by simp [hx.2]),
        List.find?_cons_of_neg _ (by simp [hx.1])]
    · simp only [updateFirst, if_neg h]
      by_cases hqx : q x = true
      · rw [List.find?_cons_of_pos _ hqx, List.find?_cons_of_pos _ hqx]
      · rw [List.find?_cons_of_neg _ hqx, List.find?_cons_of_neg _ hqx, ih]

theorem find?_updateFirst_self (p : α → Bool) (f : α → α) (l : List α) (u : α)
    (hpf : ∀ x, p (f x) = p x) (h : l.find? p = some u) :
    (updateFirst p f l).find? p = some (f u) := by
  induction l with
  | nil => simp at h
  | cons x xs ih =>
    by_cases hx : p x = true
    · rw [List.find?_cons_of_pos _ hx] at h
      injection h with h
      subst h
      simp only [updateFirst, if_pos hx]
      rw [List.find?_cons_of_pos _ (by rw [hpf]; exact hx)]
    · rw [List.find?_cons_of_neg _ hx] at h
      simp only [updateFirst, if_neg hx]
      rw [List.find?_cons_of_neg _ hx]
      exact ih h

theorem mem_updateFirst {x : α} (p : α → Bool) (f : α → α) (l : List α)
    (h : x ∈ updateFirst p f l) : x ∈ l ∨ ∃ y, y ∈ l ∧ p y = true ∧ x = f y := by
  induction l with
  | nil => simp [updateFirst] at h
  | cons a as ih =>
    by_cases ha : p a = true
    · simp only [updateFirst, if_pos ha, List.mem_cons] at h
      cases h with
      | inl h => exact Or.inr ⟨a, List.mem_cons_self a as, ha, h⟩
      | inr h => exact Or.inl (List.mem_cons_of_mem _ h)
    · simp only [updateFirst, if_neg ha, List.mem_cons] at h
      cases h with
      | inl h => exact Or.inl (h ▸ List.mem_cons_self a as)
      | inr h =>
        cases ih h with
        | inl h2 => exact Or.inl (List.mem_cons_of_mem _ h2)
        | inr h2 =>
          obtain ⟨y, hy, hpy, hxy⟩ := h2
          exact Or.inr ⟨y, List.mem_cons_of_mem _ hy, hpy, hxy⟩

theorem getElem?_updateFirst (p : α → Bool) (f : α → α) (l : List α) (i : Nat) :
    (updateFirst p f l)[i]? = l[i]? ∨
      ∃ y, l[i]? = some y ∧ l.find? p = some y ∧
        (updateFirst p f l)[i]? = some (f y) := by
  induction l generalizing i with
  | nil => left; rfl
  | cons a as ih =>
    by_cases ha : p a = true
    · cases i with
      | zero =>
        right
        exact ⟨a, by simp, List.find?_cons_of_pos _ ha, by simp [updateFirst, ha]⟩
      | succ n =>
        left
        simp [updateFirst, ha]
    · cases i with
      | zero =>
        left
        simp [updateFirst, ha]
      | succ n =>
        simp only [updateFirst, if_neg ha, List.getElem?_cons_succ]
        cases ih n with
        | inl h => exact Or.inl h
        | inr h =>
          obtain ⟨y, h1, h2, h3⟩ := h
          exact Or.inr ⟨y, h1, by rw [List.find?_cons_of_neg _ ha]; exact h2, h3⟩

/-! ### Session resolution helper -/

theorem get_current_user_find (db : DB) (token : Option String) (now : Int)
    (u : User) (h : get_current_user db token now = some u) :
    db.users.find? (fun x => x.id == u.id) = some u ∧ u ∈ db.users := by
  unfold get_current_user at h
  split at h
  · exact absurd h (by simp)
  · split at h
    · exact absurd h (by simp)
    · split at h
      · exact absurd h (by simp)
      · split at h
        · exact absurd h (by simp)
        · have hmem := List.mem_of_find?_eq_some h
          have hid := List.find?_some h
          simp only [beq_iff_eq] at hid
          rw [← hid] at h
          exact ⟨h, hmem⟩

/-- **C1.** For a caller whose `referred_by` is unset and a supplied code held
by a distinct referrer, redemption succeeds, sets the caller's `referred_by`
to the referrer's id and grants the caller one extra free prediction, and
credits the referrer with exactly one extra free prediction, one referral
and one earning; sessions and predictions are untouched. -/
theorem use_referral_code_success_spec (db : DB) (token : Option String)
    (now : Int) (code : String) (u r : User)
    (hres : get_current_user db token now = some u)
    (hnone : u.referred_by = none)
    (hcode : db.users.find? (fun x => x.referral_code == code) = some r)
    (hrfirst : db.users.find? (fun x => x.id == r.id) = some r)
    (hne : r.id ≠ u.id) :
    ∃ db2, use_referral_code db token now code = Except.ok db2 ∧
      db2.users.find? (fun x => x.id == u.id) =
        some { u with referred_by := some r.id,
                      free_predictions := u.free_predictions + 1 } ∧
      db2.users.find? (fun x => x.id == r.id) =
        some { r with free_predictions := r.free_predictions + 1,
                      referral_count := r.referral_count + 1,
                      referral_earnings := r.referral_earnings + 1 } ∧
      db2.sessions = db.sessions ∧ db2.predictions = db.predictions := by
  have hu := get_current_user_find db token now u hres
  have hbe : (r.id == u.id) = false := by simp [hne]
  have h1 : (updateFirst (fun x => x.id == u.id) (refereeUpd r.id) db.users).find?
      (fun x => x.id == u.id) = some (refereeUpd r.id u) :=
    find?_updateFirst_self (fun x => x.id == u.id) (refereeUpd r.id) db.users u
      (fun x => rfl) hu.1
  have h2 := find?_updateFirst_of_none (fun x : User => x.id == r.id)
    (fun x => x.id == u.id) referrerUpd
    (updateFirst (fun x => x.id == u.id) (refereeUpd r.id) db.users)
    (fun x hx => by
      have hxr : x.id = r.id := by simpa using hx
      exact ⟨by simp [hxr, hne], by simp [referrerUpd, hxr, hne]⟩)
  have h3 := find?_updateFirst_of_none (fun x : User => x.id == u.id)
    (fun x => x.id == r.id) (refereeUpd r.id) db.users
    (fun x hx => by
      have hxu : x.id = u.id := by simpa using hx
      exact ⟨by simp [hxu, Ne.symm hne], by simp [refereeUpd, hxu, Ne.symm hne]⟩)
  have h4 := find?_updateFirst_self (fun x : User => x.id == r.id) referrerUpd
    (updateFirst (fun x => x.id == u.id) (refereeUpd r.id) db.users) r
    (fun x => rfl) (h3.trans hrfirst)
  unfold use_referral_code
  rw [hres]
  simp only [hnone, truthyStr, Bool.false_eq_true, if_false, hcode, hbe]
  refine ⟨_, rfl, ?_, ?_, rfl, rfl⟩
  · show (updateFirst (fun x => x.id == r.id) referrerUpd
      (updateFirst (fun x => x.id == u.id) (refereeUpd r.id) db.users)).find?
        (fun x => x.id == u.id) = _
    rw [h2, h1]
    rfl
  · show (updateFirst (fun x => x.id == r.id) referrerUpd
      (updateFirst (fun x => x.id == u.id) (refereeUpd r.id) db.users)).find?
        (fun x => x.id == r.id) = _
    rw [h4]
    rfl

/-- Concrete store used by the witnesses: two users `a` and `b`, each with a
live session. -/
def wUserA : User :=
  { id := "a", email := "a@x", name := "A", picture := "pa",
    free_predictions := 5, total_predictions_used := 0,
    referral_code := "AAAA", referred_by := none, referral_count := 0,
    referral_earnings := 0, created_at := 0, last_bonus_claim := none }

def wUserB : User :=
  { id := "b", email := "b@x", name := "B", picture := "pb",
    free_predictions := 2, total_predictions_used := 3,
    referral_code := "BBBB", referred_by := none, referral_count := 0,
    referral_earnings := 0, created_at := 0, last_bonus_claim := none }

def wUserC : User :=
  { id := "c", email := "c@x", name := "C", picture := "pc",
    free_predictions := 0, total_predictions_used := 5,
    referral_code := "CCCC", referred_by := some "b", referral_count := 0,
    referral_earnings := 0, created_at := 0, last_bonus_claim := some 0 }

def wDB : DB :=
  { users := [wUserA, wUserB, wUserC],
    sessions := [{ session_token := "ta", user_id := "a", expires_at := 1000,
                   created_at := 0 },
                 { session_token := "tb", user_id := "b", expires_at := 1000,
                   created_at := 0 },
                 { session_token := "tc", user_id := "c", expires_at := 1000,
                   created_at := 0 }],
    predictions := [] }

theorem use_referral_code_success_spec_witness :
    get_current_user wDB (some "ta") 0 = some wUserA ∧
    wUserB.id ≠ wUserA.id ∧
    ∃ db2, use_referral_code wDB (some "ta") 0 "BBBB" = Except.ok db2 ∧
      db2.users.find? (fun x => x.id == wUserA.id) =
        some { wUserA with referred_by := some wUserB.id,
                           free_predictions := wUserA.free_predictions + 1 } ∧
      db2.users.find? (fun x => x.id == wUserB.id) =
        some { wUserB with free_predictions := wUserB.free_predictions + 1,
                           referral_count := wUserB.referral_count + 1,
                           referral_earnings := wUserB.referral_earnings + 1 } ∧
      db2.sessions = wDB.sessions ∧ db2.predictions = wDB.predictions :=
  ⟨by decide, by decide,
    use_referral_code_success_spec wDB (some "ta") 0 "BBBB" wUserA wUserB
      (by decide) (by decide) (by decide) (by decide) (by decide)⟩

/-! ### Handler bodies after session resolution -/

theorem claim_daily_bonus_resolved (db : DB) (token : Option String)
    (now : Int) (u : User) (hres : get_current_user db token now = some u) :
    claim_daily_bonus db token now =
      if bonusBlocked u.last_bonus_claim now then
        Except.error ApiError.bonusAlreadyClaimed
      else Except.ok { db with
        users := updateFirst (fun x => x.id == u.id) (bonusUpd now) db.users } := by
  unfold claim_daily_bonus
  rw [hres]

theorem create_prediction_resolved (db : DB) (token : Option String)
    (body : PredBody) (price : PriceResult) (pid : String) (now : Int)
    (u : User) (hres : get_current_user db token now = some u) :
    create_prediction db token body price pid now =
      if u.free_predictions ≤ 0 then Except.error ApiError.insufficientQuota
      else Except.ok { db with
        predictions := db.predictions ++
          [{ id := pid, user_id := u.id, symbol := body.symbol,
             prediction_type := body.prediction_type,
             timeframe := body.timeframe, confidence := 75.5,
             entry_price := entryPrice body.symbol price,
             target_price := body.target_price, stop_loss := body.stop_loss,
             created_at := now, is_free := true }],
        users := updateFirst (fun x => x.id == u.id) consumeUpd db.users } := by
  unfold create_prediction
  rw [hres]

theorem use_referral_code_resolved (db : DB) (token : Option String)
    (now : Int) (code : String) (u : User)
    (hres : get_current_user db token now = some u) :
    use_referral_code db token now code =
      if truthyStr u.referred_by then Except.error ApiError.alreadyReferred
      else
        match db.users.find? (fun x => x.referral_code == code) with
        | none => Except.error ApiError.unknownReferralCode
        | some referrer =>
          if referrer.id == u.id then Except.error ApiError.selfReferral
          else Except.ok { db with
            users :=
              updateFirst (fun x => x.id == referrer.id) referrerUpd
                (updateFirst (fun x => x.id == u.id)
                  (refereeUpd referrer.id) db.users) } := by
  unfold use_referral_code
  rw [hres]

/-- **C2.** For a resolved user, the daily bonus claim fails with
`bonusAlreadyClaimed` exactly when `last_bonus_claim` is present and the
whole-day difference `(now - last_bonus_claim).days` is below 1; otherwise
it succeeds, granting one free prediction and stamping
`last_bonus_claim = now`. -/
theorem claim_daily_bonus_spec (db : DB) (token : Option String) (now : Int)
    (u : User) (hres : get_current_user db token now = some u) :
    (claim_daily_bonus db token now =
        Except.error ApiError.bonusAlreadyClaimed ↔
      ∃ last, u.last_bonus_claim = some last ∧
        timedeltaDays (now - last) < 1) ∧
    ((∀ last, u.last_bonus_claim = some last →
        1 ≤ timedeltaDays (now - last)) →
      ∃ db2, claim_daily_bonus db token now = Except.ok db2 ∧
        db2.users.find? (fun x => x.id == u.id) =
          some { u with free_predictions := u.free_predictions + 1,
                        last_bonus_claim := some now } ∧
        db2.sessions = db.sessions ∧ db2.predictions = db.predictions) := by
  have hu := get_current_user_find db token now u hres
  rw [claim_daily_bonus_resolved db token now u hres]
  by_cases hb : bonusBlocked u.last_bonus_claim now = true
  · rw [if_pos hb]
    constructor
    · constructor
      · intro _
        cases hlast : u.last_bonus_claim with
        | none => rw [hlast] at hb; exact absurd hb (by simp [bonusBlocked])
        | some last =>
          rw [hlast] at hb
          simp only [bonusBlocked, decide_eq_true_eq] at hb
          exact ⟨last, rfl, hb⟩
      · intro _; rfl
    · intro hall
      exfalso
      cases hlast : u.last_bonus_claim with
      | none => rw [hlast] at hb; simp [bonusBlocked] at hb
      | some last =>
        rw [hlast] at hb
        simp only [bonusBlocked, decide_eq_true_eq] at hb
        exact absurd hb (not_lt.mpr (hall last hlast))
  · rw [if_neg hb]
    constructor
    · constructor
      · intro h; exact absurd h (by simp)
      · rintro ⟨last, hlast, hlt⟩
        rw [hlast] at hb
        simp only [bonusBlocked, decide_eq_true_eq] at hb
        exact absurd hlt hb
    · intro _
      refine ⟨_, rfl, ?_, rfl, rfl⟩
      show (updateFirst (fun x => x.id == u.id) (bonusUpd now) db.users).find?
        (fun x => x.id == u.id) = _
      rw [find?_updateFirst_self (fun x => x.id == u.id) (bonusUpd now)
        db.users u (fun x => rfl) hu.1]
      rfl

theorem claim_daily_bonus_spec_witness :
    get_current_user wDB (some "tb") 500 = some wUserB ∧
    ((claim_daily_bonus wDB (some "tb") 500 =
        Except.error ApiError.bonusAlreadyClaimed ↔
      ∃ last, wUserB.last_bonus_claim = some last ∧
        timedeltaDays (500 - last) < 1) ∧
    ((∀ last, wUserB.last_bonus_claim = some last →
        1 ≤ timedeltaDays (500 - last)) →
      ∃ db2, claim_daily_bonus wDB (some "tb") 500 = Except.ok db2 ∧
        db2.users.find? (fun x => x.id == wUserB.id) =
          some { wUserB with
                  free_predictions := wUserB.free_predictions + 1,
                  last_bonus_claim := some 500 } ∧
        db2.sessions = wDB.sessions ∧ db2.predictions = wDB.predictions)) :=
  ⟨by decide, claim_daily_bonus_spec wDB (some "tb") 500 wUserB (by decide)⟩

/-- **C3.** For a resolved user with a non-negative quota, a prediction
submission fails with `insufficientQuota` when `free_predictions <= 0` and
otherwise decrements `free_predictions` by exactly 1 and increments
`total_predictions_used` by exactly 1; in both cases the quota stays
non-negative. -/
theorem create_prediction_quota_nonneg (db : DB) (token : Option String)
    (body : PredBody) (price : PriceResult) (pid : String) (now : Int)
    (u : User) (hres : get_current_user db token now = some u)
    (hnn : 0 ≤ u.free_predictions) :
    (u.free_predictions ≤ 0 →
      create_prediction db token body price pid now =
        Except.error ApiError.insufficientQuota ∧ 0 ≤ u.free_predictions) ∧
    (0 < u.free_predictions →
      ∃ db2, create_prediction db token body price pid now = Except.ok db2 ∧
        db2.users.find? (fun x => x.id == u.id) =
          some { u with free_predictions := u.free_predictions - 1,
                        total_predictions_used :=
                          u.total_predictions_used + 1 } ∧
        0 ≤ u.free_predictions - 1) := by
  have hu := get_current_user_find db token now u hres
  rw [create_prediction_resolved db token body price pid now u hres]
  constructor
  · intro h
    rw [if_pos h]
    exact ⟨rfl, hnn⟩
  · intro h
    rw [if_neg (by omega)]
    refine ⟨_, rfl, ?_, by omega⟩
    show (updateFirst (fun x => x.id == u.id) consumeUpd db.users).find?
      (fun x => x.id == u.id) = _
    rw [find?_updateFirst_self (fun x => x.id == u.id) consumeUpd
      db.users u (fun x => rfl) hu.1]
    rfl

def wBody : PredBody :=
  { symbol := "BITCOIN", prediction_type := "bullish", timeframe := "1h",
    target_price := 50000, stop_loss := 40000 }

theorem create_prediction_quota_nonneg_witness :
    get_current_user wDB (some "ta") 0 = some wUserA ∧
    (0 : Int) ≤ wUserA.free_predictions ∧
    ((wUserA.free_predictions ≤ 0 →
      create_prediction wDB (some "ta") wBody (PriceResult.ok 45000) "p1" 0 =
        Except.error ApiError.insufficientQuota ∧
        0 ≤ wUserA.free_predictions) ∧
    (0 < wUserA.free_predictions →
      ∃ db2, create_prediction wDB (some "ta") wBody (PriceResult.ok 45000)
          "p1" 0 = Except.ok db2 ∧
        db2.users.find? (fun x => x.id == wUserA.id) =
          some { wUserA with
                  free_predictions := wUserA.free_predictions - 1,
                  total_predictions_used :=
                    wUserA.total_predictions_used + 1 } ∧
        0 ≤ wUserA.free_predictions - 1)) :=
  ⟨by decide, by decide,
    create_prediction_quota_nonneg wDB (some "ta") wBody (PriceResult.ok 45000)
      "p1" 0 wUserA (by decide) (by decide)⟩

/-- Operation trace for the quota example: one signup (quota 5) followed by
five successful prediction submissions. -/
def exAuth : AuthData :=
  { id := "u1", email := "e@x", name := "N", picture := "p",
    session_token := "tok" }

def exPred (pid : String) : Op :=
  Op.createPrediction (some "tok") wBody (PriceResult.ok 100) pid 1

def exOps5 : List Op :=
  [Op.createSession exAuth "CODE1" 0, exPred "p1", exPred "p2", exPred "p3",
   exPred "p4", exPred "p5"]

/-- **C4.** A submission with `free_predictions <= 0` fails with
`insufficientQuota` and leaves the store untouched; concretely, a user
created with quota 5 submits exactly 5 predictions, ends at quota 0, and the
6th submission fails appending nothing. -/
theorem create_prediction_gate_spec :
    (∀ (db : DB) (token : Option String) (body : PredBody)
        (price : PriceResult) (pid : String) (now : Int) (u : User),
      get_current_user db token now = some u → u.free_predictions ≤ 0 →
        create_prediction db token body price pid now =
          Except.error ApiError.insufficientQuota ∧
        applyOp db (Op.createPrediction token body price pid now) = db) ∧
    (applyOps emptyDB exOps5).predictions.length = 5 ∧
    ((applyOps emptyDB exOps5).users.find? (fun x => x.id == "u1")).map
      (fun x => x.free_predictions) = some 0 ∧
    create_prediction (applyOps emptyDB exOps5) (some "tok") wBody
      (PriceResult.ok 100) "p6" 1 = Except.error ApiError.insufficientQuota ∧
    (applyOps emptyDB (exOps5 ++ [exPred "p6"])).predictions.length = 5 := by
  refine ⟨?_, by decide, by decide, by decide, by decide⟩
  intro db token body price pid now u hres h0
  refine ⟨?_, ?_⟩
  · rw [create_prediction_resolved db token body price pid now u hres,
      if_pos h0]
  · show (match create_prediction db token body price pid now with
      | .ok db2 => db2
      | .error _ => db) = db
    rw [create_prediction_resolved db token body price pid now u hres,
      if_pos h0]

theorem create_prediction_gate_spec_witness :
    get_current_user wDB (some "tc") 0 = some wUserC ∧
    wUserC.free_predictions ≤ 0 ∧
    (create_prediction wDB (some "tc") wBody PriceResult.exc "q1" 0 =
        Except.error ApiError.insufficientQuota ∧
      applyOp wDB (Op.createPrediction (some "tc") wBody PriceResult.exc
        "q1" 0) = wDB) :=
  ⟨by decide, by decide,
    create_prediction_gate_spec.1 wDB (some "tc") wBody PriceResult.exc
      "q1" 0 wUserC (by decide) (by decide)⟩

/-- **C5.** When redemption fails for a resolved caller, the error is one of
`alreadyReferred`, `unknownReferralCode`, `selfReferral`, and the store is
completely unchanged. -/
theorem use_referral_code_failure_noop (db : DB) (token : Option String)
    (now : Int) (code : String) (u : User) (e : ApiError)
    (hres : get_current_user db token now = some u)
    (herr : use_referral_code db token now code = Except.error e) :
    (e = ApiError.alreadyReferred ∨ e = ApiError.unknownReferralCode ∨
      e = ApiError.selfReferral) ∧
    applyOp db (Op.useReferral token code now) = db := by
  constructor
  · rw [use_referral_code_resolved db token now code u hres] at herr
    split at herr
    · injection herr with h
      exact Or.inl h.symm
    · split at herr
      · injection herr with h
        exact Or.inr (Or.inl h.symm)
      · split at herr
        · injection herr with h
          exact Or.inr (Or.inr h.symm)
        · exact absurd herr (by simp)
  · show (match use_referral_code db token now code with
      | .ok db2 => db2
      | .error _ => db) = db
    rw [herr]

theorem use_referral_code_failure_noop_witness :
    get_current_user wDB (some "tc") 0 = some wUserC ∧
    use_referral_code wDB (some "tc") 0 "AAAA" =
      Except.error ApiError.alreadyReferred ∧
    ((ApiError.alreadyReferred = ApiError.alreadyReferred ∨
      ApiError.alreadyReferred = ApiError.unknownReferralCode ∨
      ApiError.alreadyReferred = ApiError.selfReferral) ∧
    applyOp wDB (Op.useReferral (some "tc") "AAAA" 0) = wDB) :=
  ⟨by decide, by decide,
    use_referral_code_failure_noop wDB (some "tc") 0 "AAAA" wUserC
      ApiError.alreadyReferred (by decide) (by decide)⟩

/-- **C6 counterexample.** User `c` has already redeemed a code
(`referred_by = some "b"`).  Redeeming their own code `CCCC` — which the
lookup maps to user `c` itself — fails with `alreadyReferred`, not
`selfReferral`, so self-redemption does not *always* fail with
`selfReferral`. -/
theorem self_referral_error_counterexample :
    (wDB.users.find? (fun x => x.referral_code == "CCCC")).map
      (fun x => x.id) = some wUserC.id ∧
    get_current_user wDB (some "tc") 0 = some wUserC ∧
    use_referral_code wDB (some "tc") 0 "CCCC" =
      Except.error ApiError.alreadyReferred ∧
    use_referral_code wDB (some "tc") 0 "CCCC" ≠
      Except.error ApiError.selfReferral := by decide

/-- **C6 amended.** Redeeming a code that the lookup maps back to the caller
never mutates the store and always fails: with `selfReferral` when the
caller's `referred_by` is unset (falsy), and with `alreadyReferred` when it
is already set. -/
theorem self_referral_spec_amended (db : DB) (token : Option String)
    (now : Int) (code : String) (u r : User)
    (hres : get_current_user db token now = some u)
    (hr : db.users.find? (fun x => x.referral_code == code) = some r)
    (hid : r.id = u.id) :
    use_referral_code db token now code =
      Except.error (if truthyStr u.referred_by then ApiError.alreadyReferred
        else ApiError.selfReferral) ∧
    applyOp db (Op.useReferral token code now) = db := by
  have hmain : use_referral_code db token now code =
      Except.error (if truthyStr u.referred_by then ApiError.alreadyReferred
        else ApiError.selfReferral) := by
    rw [use_referral_code_resolved db token now code u hres]
    by_cases hb : truthyStr u.referred_by = true
    · simp [hb]
    · simp only [Bool.not_eq_true] at hb
      simp [hb, hr, hid]
  refine ⟨hmain, ?_⟩
  show (match use_referral_code db token now code with
    | .ok db2 => db2
    | .error _ => db) = db
  rw [hmain]

theorem self_referral_spec_amended_witness :
    get_current_user wDB (some "tc") 0 = some wUserC ∧
    wDB.users.find? (fun x => x.referral_code == "CCCC") = some wUserC ∧
    (use_referral_code wDB (some "tc") 0 "CCCC" =
      Except.error (if truthyStr wUserC.referred_by then
        ApiError.alreadyReferred else ApiError.selfReferral) ∧
    applyOp wDB (Op.useReferral (some "tc") "CCCC" 0) = wDB) :=
  ⟨by decide, by decide,
    self_referral_spec_amended wDB (some "tc") 0 "CCCC" wUserC wUserC
      (by decide) (by decide) rfl⟩

/-- **C7 counterexample.** The session for token `ta` expires at time 1000,
and resolution at `now = 1000` (so `expires_at <= now`) still returns the
user: the source treats a session as dead only when `expires_at < now`,
not `expires_at <= now`. -/
theorem get_current_user_expiry_boundary_counterexample :
    (wDB.sessions.find? (fun s => s.session_token == "ta")).map
      (fun s => s.expires_at) = some 1000 ∧
    get_current_user wDB (some "ta") 1000 = some wUserA := by decide

/-- **C7 amended.** Resolution returns a user exactly when the token is
present and non-empty, the session exists with `now <= expires_at`
(strictly-past expiry kills it; `expires_at = now` is still accepted), and
the referenced user record exists; every other case is unauthenticated. -/
theorem get_current_user_spec_amended (db : DB) (token : Option String)
    (now : Int) (u : User) :
    get_current_user db token now = some u ↔
      ∃ t s, token = some t ∧ (t == "") = false ∧
        db.sessions.find? (fun x => x.session_token == t) = some s ∧
        ¬ s.expires_at < now ∧
        db.users.find? (fun x => x.id == s.user_id) = some u := by
  constructor
  · intro h
    unfold get_current_user at h
    split at h
    · exact absurd h (by simp)
    next t =>
      split at h
      · exact absurd h (by simp)
      next ht =>
        split at h
        · exact absurd h (by simp)
        next s hs =>
          split at h
          · exact absurd h (by simp)
          next hexp =>
            exact ⟨t, s, rfl, by simpa using ht, hs, hexp, h⟩
  · rintro ⟨t, s, htok, ht, hs, hexp, hu⟩
    subst htok
    simp only [get_current_user, ht, Bool.false_eq_true, if_false, hs,
      if_neg hexp]
    exact hu

/-- **C8 counterexample.** With symbol `ETHEREUM` (present in `mock_prices`
at 2845.75) and a non-200 price response, the appended prediction's
`entry_price` is the initial default 45230.50, not the per-symbol table
value: the table is consulted only when the lookup raises. -/
def cexBody : PredBody :=
  { symbol := "ETHEREUM", prediction_type := "bearish", timeframe := "1d",
    target_price := 2000, stop_loss := 3000 }

theorem entry_price_non200_counterexample :
    (mock_prices.find? (fun kv => kv.1 == "ETHEREUM")).map Prod.snd =
      some (2845.75 : ℚ) ∧
    (applyOp wDB (Op.createPrediction (some "ta") cexBody
        PriceResult.httpError "cex" 0)).predictions.map
      (fun p => p.entry_price) = [(45230.50 : ℚ)] ∧
    (45230.50 : ℚ) ≠ (2845.75 : ℚ) :=
  ⟨by rfl, by rfl, by norm_num⟩

/-- **C8 amended.** For a successful submission whose price lookup failed:
if the failure was an exception or timeout, the appended prediction's
`entry_price` is the per-symbol entry of `mock_prices` (global default
45230.50 when the symbol is absent); if the failure was a non-200 response,
`entry_price` is the global default 45230.50 regardless of symbol. -/
theorem entry_price_fallback_spec (db : DB) (token : Option String)
    (body : PredBody) (pid : String) (now : Int) (u : User)
    (hres : get_current_user db token now = some u)
    (hq : 0 < u.free_predictions) :
    (∃ db2, create_prediction db token body PriceResult.exc pid now =
        Except.ok db2 ∧
      ∃ p, db2.predictions = db.predictions ++ [p] ∧
        p.entry_price =
          ((mock_prices.find? (fun kv => kv.1 == body.symbol.toUpper)).map
            Prod.snd).getD (45230.50 : ℚ)) ∧
    (∃ db2, create_prediction db token body PriceResult.httpError pid now =
        Except.ok db2 ∧
      ∃ p, db2.predictions = db.predictions ++ [p] ∧
        p.entry_price = (45230.50 : ℚ)) := by
  constructor
  · rw [create_prediction_resolved db token body PriceResult.exc pid now u
      hres, if_neg (by omega)]
    refine ⟨_, rfl, _, rfl, ?_⟩
    show entryPrice body.symbol PriceResult.exc = _
    unfold entryPrice
    cases hm : mock_prices.find? (fun kv => kv.1 == body.symbol.toUpper) with
    | none => simp [hm]
    | some kv => simp [hm]
  · rw [create_prediction_resolved db token body PriceResult.httpError pid
      now u hres, if_neg (by omega)]
    exact ⟨_, rfl, _, rfl, rfl⟩

theorem entry_price_fallback_spec_witness :
    get_current_user wDB (some "ta") 0 = some wUserA ∧
    (0 : Int) < wUserA.free_predictions ∧
    ((∃ db2, create_prediction wDB (some "ta") cexBody PriceResult.exc
        "w8" 0 = Except.ok db2 ∧
      ∃ p, db2.predictions = wDB.predictions ++ [p] ∧
        p.entry_price =
          ((mock_prices.find? (fun kv => kv.1 == cexBody.symbol.toUpper)).map
            Prod.snd).getD (45230.50 : ℚ)) ∧
    (∃ db2, create_prediction wDB (some "ta") cexBody PriceResult.httpError
        "w8" 0 = Except.ok db2 ∧
      ∃ p, db2.predictions = wDB.predictions ++ [p] ∧
        p.entry_price = (45230.50 : ℚ))) :=
  ⟨by decide, by decide,
    entry_price_fallback_spec wDB (some "ta") cexBody "w8" 0 wUserA
      (by decide) (by decide)⟩

/-- **C10.** When the identity payload's email matches an existing user, no
user record is created (the users collection is unchanged) and the new
session binds to the *stored* user's id — regardless of the id the payload
carries. -/
theorem create_session_email_keyed (db : DB) (auth : AuthData)
    (gencode : String) (now : Int) (u : User)
    (h : db.users.find? (fun x => x.email == auth.email) = some u) :
    (create_session db auth gencode now).1.users = db.users ∧
    (create_session db auth gencode now).2 = u ∧
    (create_session db auth gencode now).1.sessions =
      db.sessions ++
        [{ session_token := auth.session_token, user_id := u.id,
           expires_at := now + 7 * 86400, created_at := now }] ∧
    (create_session db auth gencode now).1.predictions = db.predictions := by
  unfold create_session
  rw [h]
  exact ⟨rfl, rfl, rfl, rfl⟩

def wAuthZ : AuthData :=
  { id := "zzz", email := "a@x", name := "Z", picture := "pz",
    session_token := "tz" }

theorem create_session_email_keyed_witness :
    wDB.users.find? (fun x => x.email == wAuthZ.email) = some wUserA ∧
    wAuthZ.id ≠ wUserA.id ∧
    ((create_session wDB wAuthZ "GGGG" 0).1.users = wDB.users ∧
    (create_session wDB wAuthZ "GGGG" 0).2 = wUserA ∧
    (create_session wDB wAuthZ "GGGG" 0).1.sessions =
      wDB.sessions ++
        [{ session_token := wAuthZ.session_token, user_id := wUserA.id,
           expires_at := 0 + 7 * 86400, created_at := 0 }] ∧
    (create_session wDB wAuthZ "GGGG" 0).1.predictions = wDB.predictions) :=
  ⟨by decide, by decide,
    create_session_email_keyed wDB wAuthZ "GGGG" 0 wUserA (by decide)⟩

/-! ### Referral-graph invariant machinery (C9) -/

/-- Identity payloads with empty external ids are the one degenerate input
class: an empty user id makes a later `referred_by = ""` falsy in Python's
truthiness test. -/
def ValidOp : Op → Prop
  | .createSession auth _ _ => auth.id ≠ ""
  | _ => True

/-- A user record whose id is nonempty, whose `referred_by` is never the
empty string, and never the user's own id. -/
def GoodUser (u : User) : Prop :=
  u.id ≠ "" ∧ u.referred_by ≠ some "" ∧ ∀ s, u.referred_by = some s → s ≠ u.id

def GoodDB (db : DB) : Prop := ∀ u ∈ db.users, GoodUser u

/-- Evolution relation on the users collection: no record is ever removed,
ids are stable per position, and a `referred_by` that was present is
preserved verbatim. -/
def UsersStable (l l2 : List User) : Prop :=
  l.length ≤ l2.length ∧
  ∀ (i : Nat) (u u2 : User), l[i]? = some u → l2[i]? = some u2 →
    u2.id = u.id ∧ (u.referred_by = none ∨ u2.referred_by = u.referred_by)

theorem usersStable_refl (l : List User) : UsersStable l l := by
  refine ⟨le_refl _, ?_⟩
  intro i u u2 h1 h2
  rw [h1] at h2
  injection h2 with h2
  subst h2
  exact ⟨rfl, Or.inr rfl⟩

theorem usersStable_trans {l1 l2 l3 : List User} (h12 : UsersStable l1 l2)
    (h23 : UsersStable l2 l3) : UsersStable l1 l3 := by
  refine ⟨le_trans h12.1 h23.1, ?_⟩
  intro i u u3 h1 h3
  have hi : i < l1.length := (List.getElem?_eq_some_iff.mp h1).1
  have hi2 : i < l2.length := lt_of_lt_of_le hi h12.1
  have h2 : l2[i]? = some l2[i] := List.getElem?_eq_getElem hi2
  obtain ⟨hid12, hrb12⟩ := h12.2 i u _ h1 h2
  obtain ⟨hid23, hrb23⟩ := h23.2 i _ u3 h2 h3
  refine ⟨hid23.trans hid12, ?_⟩
  cases hrb12 with
  | inl h => exact Or.inl h
  | inr h =>
    cases hrb23 with
    | inl h0 => exact Or.inl (by rw [← h, h0])
    | inr h0 => exact Or.inr (h0.trans h)

theorem usersStable_updateFirst (p : User → Bool) (f : User → User)
    (l : List User)
    (hf : ∀ x, (f x).id = x.id ∧ (f x).referred_by = x.referred_by) :
    UsersStable l (updateFirst p f l) := by
  refine ⟨le_of_eq (updateFirst_length p f l).symm, ?_⟩
  intro i u u2 h1 h2
  cases getElem?_updateFirst p f l i with
  | inl h =>
    rw [h1] at h
    rw [h2] at h
    injection h with h
    subst h
    exact ⟨rfl, Or.inr rfl⟩
  | inr h =>
    obtain ⟨y, hy, _, hup⟩ := h
    rw [h1] at hy
    injection hy with hy
    subst hy
    rw [hup] at h2
    injection h2 with h2
    subst h2
    exact ⟨(hf u).1, Or.inr (hf u).2⟩

theorem usersStable_updateFirst_of_none (p : User → Bool) (f : User → User)
    (l : List User) (hf : ∀ x, (f x).id = x.id)
    (hnone : ∀ y, l.find? p = some y → y.referred_by = none) :
    UsersStable l (updateFirst p f l) := by
  refine ⟨le_of_eq (updateFirst_length p f l).symm, ?_⟩
  intro i u u2 h1 h2
  cases getElem?_updateFirst p f l i with
  | inl h =>
    rw [h1] at h
    rw [h2] at h
    injection h with h
    subst h
    exact ⟨rfl, Or.inr rfl⟩
  | inr h =>
    obtain ⟨y, hy, hfind, hup⟩ := h
    rw [h1] at hy
    injection hy with hy
    subst hy
    rw [hup] at h2
    injection h2 with h2
    subst h2
    exact ⟨hf u, Or.inl (hnone u hfind)⟩

/-! ### Shape of each handler's result (C9) -/

theorem create_session_users_shape (db : DB) (auth : AuthData)
    (gencode : String) (now : Int) :
    (create_session db auth gencode now).1.users = db.users ∨
    ∃ nu, (create_session db auth gencode now).1.users = db.users ++ [nu] ∧
      nu.id = auth.id ∧ nu.referred_by = none := by
  unfold create_session
  split
  · left
    rfl
  · right
    exact ⟨_, rfl, rfl, rfl⟩

theorem logout_users_shape (db : DB) (token : Option String) (now : Int) :
    (logout db token now).users = db.users := by
  unfold logout
  split
  · rfl
  · rfl

theorem create_prediction_ok_users (db : DB) (token : Option String)
    (body : PredBody) (price : PriceResult) (pid : String) (now : Int)
    (db2 : DB)
    (h : create_prediction db token body price pid now = Except.ok db2) :
    ∃ u, get_current_user db token now = some u ∧
      db2.users = updateFirst (fun x => x.id == u.id) consumeUpd db.users := by
  unfold create_prediction at h
  split at h
  · exact absurd h (by simp)
  next u hu =>
    split at h
    · exact absurd h (by simp)
    · injection h with h
      exact ⟨u, hu, by rw [← h]⟩

theorem claim_daily_bonus_ok_users (db : DB) (token : Option String)
    (now : Int) (db2 : DB)
    (h : claim_daily_bonus db token now = Except.ok db2) :
    ∃ u, get_current_user db token now = some u ∧
      db2.users =
        updateFirst (fun x => x.id == u.id) (bonusUpd now) db.users := by
  unfold claim_daily_bonus at h
  split at h
  · exact absurd h (by simp)
  next u hu =>
    split at h
    · exact absurd h (by simp)
    · injection h with h
      exact ⟨u, hu, by rw [← h]⟩

theorem use_referral_code_ok_inv (db : DB) (token : Option String)
    (now : Int) (code : String) (db2 : DB)
    (h : use_referral_code db token now code = Except.ok db2) :
    ∃ u r, get_current_user db token now = some u ∧
      truthyStr u.referred_by = false ∧
      db.users.find? (fun x => x.referral_code == code) = some r ∧
      (r.id == u.id) = false ∧
      db2.users =
        updateFirst (fun x => x.id == r.id) referrerUpd
          (updateFirst (fun x => x.id == u.id) (refereeUpd r.id)
            db.users) := by
  unfold use_referral_code at h
  split at h
  · exact absurd h (by simp)
  next u hu =>
    split at h
    next htr => exact absurd h (by simp)
    next htr =>
      split at h
      · exact absurd h (by simp)
      next r hr =>
        split at h
        next hbeq => exact absurd h (by simp)
        next hbeq =>
          injection h with h
          exact ⟨u, r, hu, by simpa using htr, hr, by simpa using hbeq,
            by rw [← h]⟩

theorem goodUser_referee (u r y : User) (hg : GoodUser y)
    (hrid : r.id ≠ "") (hru : r.id ≠ u.id) (hyid : y.id = u.id) :
    GoodUser (refereeUpd r.id y) := by
  refine ⟨hg.1, ?_, ?_⟩
  · show some r.id ≠ some ""
    simp [hrid]
  · intro s hs
    have hsr : r.id = s := by simpa [refereeUpd] using hs
    subst hsr
    show r.id ≠ (refereeUpd r.id y).id
    show r.id ≠ y.id
    rw [hyid]
    exact hru

theorem goodDB_applyOp (db : DB) (op : Op) (hg : GoodDB db)
    (hv : ValidOp op) : GoodDB (applyOp db op) := by
  cases op with
  | createSession auth gencode now =>
    show GoodDB (create_session db auth gencode now).1
    intro x hx
    cases create_session_users_shape db auth gencode now with
    | inl h =>
      rw [h] at hx
      exact hg x hx
    | inr h =>
      obtain ⟨nu, h, hid, hrb⟩ := h
      rw [h] at hx
      rcases List.mem_append.mp hx with hmem | hmem
      · exact hg x hmem
      · have hxnu : x = nu := by simpa using hmem
        subst hxnu
        refine ⟨?_, by simp [hrb], by simp [hrb]⟩
        rw [hid]
        exact hv
  | doLogout token now =>
    show GoodDB (logout db token now)
    intro x hx
    rw [logout_users_shape] at hx
    exact hg x hx
  | createPrediction token body price pid now =>
    show GoodDB (match create_prediction db token body price pid now with
      | .ok db2 => db2
      | .error _ => db)
    cases hc : create_prediction db token body price pid now with
    | error e => exact hg
    | ok db2 =>
      obtain ⟨u, _, hus⟩ :=
        create_prediction_ok_users db token body price pid now db2 hc
      intro x hx
      have hx2 : x ∈ db2.users := hx
      rw [hus] at hx2
      rcases mem_updateFirst _ _ _ hx2 with hmem | ⟨y, hy, _, hxy⟩
      · exact hg x hmem
      · subst hxy
        exact hg y hy
  | claimBonus token now =>
    show GoodDB (match claim_daily_bonus db token now with
      | .ok db2 => db2
      | .error _ => db)
    cases hc : claim_daily_bonus db token now with
    | error e => exact hg
    | ok db2 =>
      obtain ⟨u, _, hus⟩ := claim_daily_bonus_ok_users db token now db2 hc
      intro x hx
      have hx2 : x ∈ db2.users := hx
      rw [hus] at hx2
      rcases mem_updateFirst _ _ _ hx2 with hmem | ⟨y, hy, _, hxy⟩
      · exact hg x hmem
      · subst hxy
        exact hg y hy
  | useReferral token code now =>
    show GoodDB (match use_referral_code db token now code with
      | .ok db2 => db2
      | .error _ => db)
    cases hc : use_referral_code db token now code with
    | error e => exact hg
    | ok db2 =>
      obtain ⟨u, r, hu, htr, hr, hbeq, hus⟩ :=
        use_referral_code_ok_inv db token now code db2 hc
      have hrgood := hg r (List.mem_of_find?_eq_some hr)
      have hru : r.id ≠ u.id := by simpa using hbeq
      intro x hx
      have hx2 : x ∈ db2.users := hx
      rw [hus] at hx2
      rcases mem_updateFirst _ _ _ hx2 with hx1 | ⟨y, hy1, _, hxy⟩
      · rcases mem_updateFirst _ _ _ hx1 with hmem | ⟨y, hy, hpy, hxy⟩
        · exact hg x hmem
        · subst hxy
          exact goodUser_referee u r y (hg y hy) hrgood.1 hru
            (by simpa using hpy)
      · subst hxy
        rcases mem_updateFirst _ _ _ hy1 with hmem | ⟨z, hz, hpz, hyz⟩
        · exact hg y hmem
        · subst hyz
          exact goodUser_referee u r z (hg z hz) hrgood.1 hru
            (by simpa using hpz)

theorem usersStable_applyOp (db : DB) (op : Op) (hg : GoodDB db) :
    UsersStable db.users (applyOp db op).users := by
  cases op with
  | createSession auth gencode now =>
    show UsersStable db.users (create_session db auth gencode now).1.users
    cases create_session_users_shape db auth gencode now with
    | inl h =>
      rw [h]
      exact usersStable_refl _
    | inr h =>
      obtain ⟨nu, h, _, _⟩ := h
      rw [h]
      refine ⟨by simp, ?_⟩
      intro i u u2 h1 h2
      have hi : i < db.users.length := (List.getElem?_eq_some_iff.mp h1).1
      rw [List.getElem?_append_left hi] at h2
      rw [h1] at h2
      injection h2 with h2
      subst h2
      exact ⟨rfl, Or.inr rfl⟩
  | doLogout token now =>
    show UsersStable db.users (logout db token now).users
    rw [logout_users_shape]
    exact usersStable_refl _
  | createPrediction token body price pid now =>
    show UsersStable db.users (match create_prediction db token body price
      pid now with
      | .ok db2 => db2
      | .error _ => db).users
    cases hc : create_prediction db token body price pid now with
    | error e => exact usersStable_refl _
    | ok db2 =>
      obtain ⟨u, _, hus⟩ :=
        create_prediction_ok_users db token body price pid now db2 hc
      show UsersStable db.users db2.users
      rw [hus]
      exact usersStable_updateFirst _ consumeUpd db.users
        (fun x => ⟨rfl, rfl⟩)
  | claimBonus token now =>
    show UsersStable db.users (match claim_daily_bonus db token now with
      | .ok db2 => db2
      | .error _ => db).users
    cases hc : claim_daily_bonus db token now with
    | error e => exact usersStable_refl _
    | ok db2 =>
      obtain ⟨u, _, hus⟩ := claim_daily_bonus_ok_users db token now db2 hc
      show UsersStable db.users db2.users
      rw [hus]
      exact usersStable_updateFirst _ (bonusUpd now) db.users
        (fun x => ⟨rfl, rfl⟩)
  | useReferral token code now =>
    show UsersStable db.users (match use_referral_code db token now code with
      | .ok db2 => db2
      | .error _ => db).users
    cases hc : use_referral_code db token now code with
    | error e => exact usersStable_refl _
    | ok db2 =>
      obtain ⟨u, r, hu, htr, hr, hbeq, hus⟩ :=
        use_referral_code_ok_inv db token now code db2 hc
      show UsersStable db.users db2.users
      rw [hus]
      refine usersStable_trans
        (usersStable_updateFirst_of_none (fun x => x.id == u.id)
          (refereeUpd r.id) db.users (fun x => rfl) ?_)
        (usersStable_updateFirst (fun x => x.id == r.id) referrerUpd _
          (fun x => ⟨rfl, rfl⟩))
      intro y hfy
      have hufind := get_current_user_find db token now u hu
      rw [hufind.1] at hfy
      injection hfy with hfy
      subst hfy
      cases hrb : u.referred_by with
      | none => rfl
      | some s =>
        rw [hrb] at htr
        have hs : s = "" := by simpa [truthyStr] using htr
        subst hs
        exact absurd hrb (hg u hufind.2).2.1

theorem goodDB_empty : GoodDB emptyDB := by
  intro u hu
  exact absurd hu (by simp [emptyDB])

theorem goodDB_applyOps (db : DB) (ops : List Op) (hg : GoodDB db)
    (hv : ∀ op ∈ ops, ValidOp op) : GoodDB (applyOps db ops) := by
  induction ops generalizing db with
  | nil => exact hg
  | cons op ops ih =>
    exact ih (applyOp db op)
      (goodDB_applyOp db op hg (hv op (List.mem_cons_self op ops)))
      (fun o ho => hv o (List.mem_cons_of_mem _ ho))

theorem usersStable_applyOps (db : DB) (ops : List Op) (hg : GoodDB db)
    (hv : ∀ op ∈ ops, ValidOp op) :
    UsersStable db.users (applyOps db ops).users := by
  induction ops generalizing db with
  | nil => exact usersStable_refl _
  | cons op ops ih =>
    exact usersStable_trans (usersStable_applyOp db op hg)
      (ih (applyOp db op)
        (goodDB_applyOp db op hg (hv op (List.mem_cons_self op ops)))
        (fun o ho => hv o (List.mem_cons_of_mem _ ho)))

/-- **C9 counterexample.** With an identity payload whose external id is the
empty string, the invariant breaks: user `cc` redeems the empty-id user's
code (so `referred_by = some ""`), and because Python's
`if user.referred_by:` treats `""` as falsy, a second redemption passes the
guard and rebinds `referred_by` to `some "cb"` — `referred_by` changed
after being set. -/
def cxAuthA : AuthData :=
  { id := "", email := "ca@x", name := "CA", picture := "q",
    session_token := "sa" }

def cxAuthB : AuthData :=
  { id := "cb", email := "cb@x", name := "CB", picture := "q",
    session_token := "sb" }

def cxAuthC : AuthData :=
  { id := "cc", email := "cc@x", name := "CC", picture := "q",
    session_token := "sc" }

def cxOps1 : List Op :=
  [Op.createSession cxAuthA "KAAA" 0, Op.createSession cxAuthB "KBBB" 0,
   Op.createSession cxAuthC "KCCC" 0, Op.useReferral (some "sc") "KAAA" 1]

def cxOp2 : Op := Op.useReferral (some "sc") "KBBB" 2

theorem referred_by_rebind_counterexample :
    ((applyOps emptyDB cxOps1).users.find? (fun x => x.id == "cc")).map
      (fun x => x.referred_by) = some (some "") ∧
    ((applyOps emptyDB (cxOps1 ++ [cxOp2])).users.find?
        (fun x => x.id == "cc")).map (fun x => x.referred_by) =
      some (some "cb") ∧
    (some "" : Option String) ≠ some "cb" := by decide

/-- **C9 amended.** Along any operation sequence from the empty store in
which every identity payload carries a nonempty external id: a set
`referred_by` never equals the user's own id, and across any further
operations no user record is removed, its id never changes, and a
`referred_by` that is present is never changed or cleared (so it transitions
from absent to present at most once). -/
theorem referred_by_invariant_spec (ops1 ops2 : List Op)
    (h1 : ∀ op ∈ ops1, ValidOp op) (h2 : ∀ op ∈ ops2, ValidOp op) :
    (∀ u ∈ (applyOps emptyDB ops1).users, ∀ s,
      u.referred_by = some s → s ≠ u.id) ∧
    UsersStable (applyOps emptyDB ops1).users
      (applyOps (applyOps emptyDB ops1) ops2).users := by
  have hgood := goodDB_applyOps emptyDB ops1 goodDB_empty h1
  exact ⟨fun u hu => (hgood u hu).2.2,
    usersStable_applyOps (applyOps emptyDB ops1) ops2 hgood h2⟩

theorem referred_by_invariant_spec_witness :
    (∀ op ∈ [Op.createSession exAuth "CODE1" 0], ValidOp op) ∧
    (∀ op ∈ [Op.claimBonus (some "tok") 1], ValidOp op) ∧
    ((∀ u ∈ (applyOps emptyDB [Op.createSession exAuth "CODE1" 0]).users,
        ∀ s, u.referred_by = some s → s ≠ u.id) ∧
      UsersStable
        (applyOps emptyDB [Op.createSession exAuth "CODE1" 0]).users
        (applyOps (applyOps emptyDB [Op.createSession exAuth "CODE1" 0])
          [Op.claimBonus (some "tok") 1]).users) :=
  ⟨fun op hop => by
      rw [List.mem_singleton] at hop
      subst hop
      show exAuth.id ≠ ""
      decide,
    fun op hop => by
      rw [List.mem_singleton] at hop
      subst hop
      trivial,
    referred_by_invariant_spec [Op.createSession exAuth "CODE1" 0]
      [Op.claimBonus (some "tok") 1]
      (fun op hop => by
        rw [List.mem_singleton] at hop
        subst hop
        show exAuth.id ≠ ""
        decide)
      (fun op hop => by
        rw [List.mem_singleton] at hop
        subst hop
        trivial)⟩
